import Mathlib

/-!
Verification of the NL2SQL backend (src/backend/main.py) against its
natural-language specification.

The development shallowly embeds the Python source: strings are `String`
over Lean characters (Python `.strip()` / `.lower()` are modelled over the
ASCII range, which is the range exercised by every input in this file),
`json.loads` is modelled by an executable JSON parser with Python json
semantics (strict mode), the pandas parsers and the sqlite engine are
external collaborators and appear as function parameters, and the
process-wide mutable state (sqlite database file plus the schema registry
list) is threaded explicitly.
-/

namespace NL2SQL

/-! ## Python string primitives -/

/-- ASCII whitespace set of Python `str.strip()` (space, tab, LF, CR, VT, FF). -/
def isWsChar (c : Char) : Bool :=
  c.toNat = 32 || c.toNat = 9 || c.toNat = 10 || c.toNat = 13 ||
    c.toNat = 11 || c.toNat = 12

/-- Drop a matching suffix: mirror image of `List.dropWhile`. -/
def dropEndWhile (p : Char → Bool) (l : List Char) : List Char :=
  (l.reverse.dropWhile p).reverse

/-- Strip characters satisfying `p` from both ends (Python `str.strip`). -/
def stripBoth (p : Char → Bool) (l : List Char) : List Char :=
  List.dropWhile p (dropEndWhile p l)

/-- Python `str.strip()` on a string. -/
def pyStrip (s : String) : String :=
  (stripBoth isWsChar s.toList).asString

/-- Python `str.lower()` (ASCII range). -/
def pyLower (s : String) : String :=
  (s.toList.map Char.toLower).asString

/-- Python `str.startswith(pre)`. -/
def pyStartsWith (s pre : String) : Bool :=
  pre.toList.isPrefixOf s.toList

/-- ASCII alphanumeric (`[a-zA-Z0-9]`). -/
def isAlnumChar (c : Char) : Bool :=
  (65 ≤ c.toNat && c.toNat ≤ 90) || (97 ≤ c.toNat && c.toNat ≤ 122) ||
    (48 ≤ c.toNat && c.toNat ≤ 57)

/-! ## `os.path.splitext` -/

/-- Index of the last element of `l` satisfying `p`, if any. -/
def lastIdx? (p : Char → Bool) (l : List Char) : Option Nat :=
  match l.reverse.findIdx? p with
  | none => none
  | some k => some (l.length - 1 - k)

/-- `os.path.splitext(f)[0]` (posix rules: the extension starts at the last
dot after the last slash, and a basename made only of leading dots carries
no extension). -/
def splitextRoot (f : String) : String :=
  let l := f.toList
  let si : Nat :=
    match lastIdx? (· = '/') l with
    | none => 0
    | some k => k + 1
  match lastIdx? (· = '.') l with
  | none => f
  | some d =>
    if si ≤ d && ((l.drop si).take (d - si)).any (· ≠ '.') then
      (l.take d).asString
    else f

/-- `os.path.splitext(f)[1]`, the extension including the dot. -/
def splitextExt (f : String) : String :=
  let l := f.toList
  let si : Nat :=
    match lastIdx? (· = '/') l with
    | none => 0
    | some k => k + 1
  match lastIdx? (· = '.') l with
  | none => ""
  | some d =>
    if si ≤ d && ((l.drop si).take (d - si)).any (· ≠ '.') then
      (l.drop d).asString
    else ""

/-! ## Table-name sanitization (main.py lines 47-51) -/

/-- One step of `re.sub(r"[^a-zA-Z0-9_]", "_", base)`: any character that is
not alphanumeric and not an underscore becomes an underscore. -/
def subNonWord (c : Char) : Char :=
  if isAlnumChar c || c = '_' then c else '_'

/-- `re.sub(r"_+", "_", ...)`: collapse each run of underscores to one.
The flag records whether the previous character belonged to an underscore
run (so that only the first underscore of a run is emitted). -/
def collapseURun : Bool → List Char → List Char
  | _, [] => []
  | prevU, c :: rest =>
    if c = '_' then
      (if prevU then [] else ['_']) ++ collapseURun true rest
    else c :: collapseURun false rest

/-- `sanitize_table_name` from main.py lines 47-51. -/
def sanitize_table_name (filename : String) : String :=
  let base := pyLower (pyStrip (splitextRoot filename))
  let cleaned := base.toList.map subNonWord
  let collapsed := collapseURun false cleaned
  let stripped := (stripBoth (· = '_') collapsed).asString
  if stripped = "" then "uploaded_table" else stripped

/-- Modelled from the spec (section 3 data model, claim C7): collapse every
maximal run of non-alphanumeric characters to a single underscore. The flag
records whether the previous character belonged to such a run. -/
def collapseRunsAux : Bool → List Char → List Char
  | _, [] => []
  | inRun, c :: rest =>
    if isAlnumChar c then c :: collapseRunsAux false rest
    else (if inRun then [] else ['_']) ++ collapseRunsAux true rest

/-- Modelled from the spec: the whole claimed derivation of C7 — lower-case
the basename, collapse every maximal run of non-alphanumeric characters to a
single underscore, strip leading and trailing underscores, and fall back to
a constant when empty. -/
def sanitizeSpec (filename : String) : String :=
  let base := pyLower (splitextRoot filename)
  let stripped := (stripBoth (· = '_') (collapseRunsAux false base.toList)).asString
  if stripped = "" then "uploaded_table" else stripped

example : sanitize_table_name "Sales Report (2024).csv" = "sales_report_2024" := by decide
example : sanitizeSpec "Sales Report (2024).csv" = "sales_report_2024" := by decide
example : sanitize_table_name "   .csv" = "uploaded_table" := by decide
example : sanitizeSpec "   .csv" = "uploaded_table" := by decide
example : sanitize_table_name "a__b-.c..tsv" = sanitizeSpec "a__b-.c..tsv" := by decide

/-! ## Equivalence of the two sanitization pipelines (claim C7) -/

theorem toLower_isWs (c : Char) : isWsChar (Char.toLower c) = isWsChar c := by
  have hdef : Char.toLower c =
      if c.toNat ≥ 65 ∧ c.toNat ≤ 90 then Char.ofNat (c.toNat + 32) else c := rfl
  by_cases h : c.toNat ≥ 65 ∧ c.toNat ≤ 90
  · have hv : (c.toNat + 32).isValidChar := Or.inl (by omega)
    have ht : (Char.ofNat (c.toNat + 32)).toNat = c.toNat + 32 := by
      simp only [Char.ofNat, dif_pos hv]
      rfl
    rw [hdef, if_pos h]
    have hA : isWsChar (Char.ofNat (c.toNat + 32)) = false := by
      simp only [isWsChar, ht, Bool.or_eq_false_iff, decide_eq_false_iff_not]
      omega
    have hB : isWsChar c = false := by
      simp only [isWsChar, Bool.or_eq_false_iff, decide_eq_false_iff_not]
      omega
    rw [hA, hB]
  · rw [hdef, if_neg h]

theorem ws_not_alnum {c : Char} (h : isWsChar c = true) : isAlnumChar c = false := by
  simp only [isWsChar, Bool.or_eq_true, decide_eq_true_eq] at h
  simp only [isAlnumChar, Bool.or_eq_false_iff, Bool.and_eq_false_iff,
    decide_eq_false_iff_not]
  omega

theorem alnum_ne_und {c : Char} (h : isAlnumChar c = true) : (c = '_') = False := by
  simp only [isAlnumChar, Bool.or_eq_true, Bool.and_eq_true, decide_eq_true_eq] at h
  simp only [eq_iff_iff, iff_false]
  intro hc
  subst hc
  revert h
  decide

theorem subNonWord_of_alnum {c : Char} (h : isAlnumChar c = true) :
    subNonWord c = c := by
  simp [subNonWord, h]

theorem subNonWord_of_not_alnum {c : Char} (h : isAlnumChar c = false) :
    subNonWord c = '_' := by
  by_cases hu : c = '_'
  · simp [subNonWord, hu]
  · simp [subNonWord, h, hu]

/-- Replacing every non-word character by an underscore and then collapsing
underscore runs is the same as collapsing non-alphanumeric runs directly. -/
theorem collapseURun_map_subNonWord (l : List Char) (flag : Bool) :
    collapseURun flag (l.map subNonWord) = collapseRunsAux flag l := by
  induction l generalizing flag with
  | nil => rfl
  | cons c rest ih =>
    by_cases h : isAlnumChar c = true
    · rw [List.map_cons, subNonWord_of_alnum h]
      simp only [collapseURun, collapseRunsAux, h, if_pos, alnum_ne_und h, if_false]
      rw [ih]
    · have h0 : isAlnumChar c = false := by simpa using h
      rw [List.map_cons, subNonWord_of_not_alnum h0]
      simp only [collapseURun, collapseRunsAux, h0]
      simp only [if_true, Bool.false_eq_true, if_false]
      rw [ih]

theorem dropEndWhile_cons_neg {p : Char → Bool} {c : Char} (h : p c = false)
    (l : List Char) : dropEndWhile p (c :: l) = c :: dropEndWhile p l := by
  unfold dropEndWhile
  rw [List.reverse_cons, List.dropWhile_append]
  by_cases he : (l.reverse.dropWhile p).isEmpty
  · rw [if_pos he, List.dropWhile_cons_of_neg (by simp [h]), List.isEmpty_iff.mp he]
    rfl
  · rw [if_neg he, List.reverse_append]
    rfl

theorem dropEndWhile_cons_pos {p : Char → Bool} {c : Char} (h : p c = true)
    (l : List Char) :
    dropEndWhile p (c :: l) =
      if dropEndWhile p l = [] then [] else c :: dropEndWhile p l := by
  unfold dropEndWhile
  rw [List.reverse_cons, List.dropWhile_append]
  by_cases he : (l.reverse.dropWhile p).isEmpty
  · rw [if_pos he, List.isEmpty_iff.mp he, if_pos (by rfl)]
    simp [List.dropWhile, h]
  · have hne : l.reverse.dropWhile p ≠ [] := by
      simpa [List.isEmpty_iff] using he
    rw [if_neg he, List.reverse_append, if_neg (by simpa using hne)]
    rfl

theorem stripBoth_cons_und (l : List Char) :
    stripBoth (· = '_') ('_' :: l) = stripBoth (· = '_') l := by
  unfold stripBoth
  rw [dropEndWhile_cons_pos (by decide) l]
  by_cases he : dropEndWhile (· = '_') l = []
  · rw [if_pos he, he]
  · rw [if_neg he, List.dropWhile_cons_of_pos (by decide)]

/-- An all-non-alphanumeric tail collapses to nothing (continuing run) or a
single underscore (fresh run). -/
theorem collapseRunsAux_all_nonalnum {m : List Char}
    (hm : ∀ c ∈ m, isAlnumChar c = false) :
    collapseRunsAux true m = [] ∧
      collapseRunsAux false m = (if m = [] then [] else ['_']) := by
  induction m with
  | nil => exact ⟨rfl, rfl⟩
  | cons c rest ih =>
    have hc : isAlnumChar c = false := hm c (by simp)
    have ih2 := ih (fun d hd => hm d (by simp [hd]))
    refine ⟨?_, ?_⟩
    · simp [collapseRunsAux, hc, ih2.1]
    · simp [collapseRunsAux, hc, ih2.1]

/-- Appending an all-non-alphanumeric suffix does not change the collapsed,
end-stripped form. -/
theorem dropEnd_collapse_append {m : List Char}
    (hm : ∀ c ∈ m, isAlnumChar c = false) :
    ∀ (l : List Char) (flag : Bool),
      dropEndWhile (· = '_') (collapseRunsAux flag (l ++ m)) =
        dropEndWhile (· = '_') (collapseRunsAux flag l) := by
  intro l
  induction l with
  | nil =>
    intro flag
    rcases collapseRunsAux_all_nonalnum hm with ⟨h1, h2⟩
    cases flag
    · rw [List.nil_append, h2]
      by_cases hmn : m = []
      · rw [if_pos hmn]
        rfl
      · rw [if_neg hmn]
        rfl
    · rw [List.nil_append, h1]
      rfl
  | cons c rest ih =>
    intro flag
    by_cases h : isAlnumChar c = true
    · have hcu : ((c = '_') : Prop) = False := alnum_ne_und h
      simp only [List.cons_append, collapseRunsAux, h, if_pos, List.append_eq]
      rw [dropEndWhile_cons_neg (by simp [hcu]) _,
        dropEndWhile_cons_neg (by simp [hcu]) _]
      have := ih false
      simp only [List.append_eq] at this ⊢
      rw [this]
    · have h0 : isAlnumChar c = false := by simpa using h
      simp only [List.cons_append, collapseRunsAux, h0, Bool.false_eq_true, if_false,
        List.append_eq]
      have hi := ih true
      simp only [List.append_eq] at hi
      cases flag
      · simp only [if_false, Bool.false_eq_true, List.singleton_append]
        rw [dropEndWhile_cons_pos (by decide) _, dropEndWhile_cons_pos (by decide) _,
          hi]
      · simp only [if_true, List.nil_append]
        exact hi

theorem stripBoth_collapse_append {m : List Char}
    (hm : ∀ c ∈ m, isAlnumChar c = false) (l : List Char) (flag : Bool) :
    stripBoth (· = '_') (collapseRunsAux flag (l ++ m)) =
      stripBoth (· = '_') (collapseRunsAux flag l) := by
  unfold stripBoth
  rw [dropEnd_collapse_append hm l flag]

/-- Starting inside or outside a non-alphanumeric run makes no difference
after underscore stripping. -/
theorem stripBoth_collapse_flag (l : List Char) :
    stripBoth (· = '_') (collapseRunsAux true l) =
      stripBoth (· = '_') (collapseRunsAux false l) := by
  cases l with
  | nil => rfl
  | cons c rest =>
    by_cases h : isAlnumChar c = true
    · simp [collapseRunsAux, h]
    · have h0 : isAlnumChar c = false := by simpa using h
      simp only [collapseRunsAux, h0, Bool.false_eq_true, if_false, if_true,
        List.singleton_append, List.nil_append]
      rw [stripBoth_cons_und]

/-- Dropping leading whitespace does not change the final sanitized form. -/
theorem stripBoth_collapse_dropWs (l : List Char) :
    stripBoth (· = '_') (collapseRunsAux false (l.dropWhile isWsChar)) =
      stripBoth (· = '_') (collapseRunsAux false l) := by
  induction l with
  | nil => rfl
  | cons c rest ih =>
    by_cases h : isWsChar c = true
    · rw [List.dropWhile_cons_of_pos h, ih]
      have h0 : isAlnumChar c = false := ws_not_alnum h
      simp only [collapseRunsAux, h0, Bool.false_eq_true, if_false,
        List.singleton_append]
      rw [stripBoth_cons_und, stripBoth_collapse_flag]
    · rw [List.dropWhile_cons_of_neg (by simpa using h)]

theorem isWs_comp_toLower : (isWsChar ∘ Char.toLower) = isWsChar :=
  funext fun c => toLower_isWs c

theorem map_toLower_dropWhile (l : List Char) :
    List.dropWhile isWsChar (l.map Char.toLower) =
      (l.dropWhile isWsChar).map Char.toLower := by
  rw [List.dropWhile_map, isWs_comp_toLower]

theorem map_toLower_dropEnd (l : List Char) :
    dropEndWhile isWsChar (l.map Char.toLower) =
      (dropEndWhile isWsChar l).map Char.toLower := by
  unfold dropEndWhile
  rw [← List.map_reverse, List.dropWhile_map, isWs_comp_toLower, List.map_reverse]

/-- Decomposition of a list into its whitespace-end-stripped prefix and the
stripped all-whitespace suffix. -/
theorem dropEndWhile_decomp (p : Char → Bool) (l : List Char) :
    l = dropEndWhile p l ++ (l.reverse.takeWhile p).reverse ∧
      ∀ c ∈ (l.reverse.takeWhile p).reverse, p c = true := by
  constructor
  · unfold dropEndWhile
    have h := List.takeWhile_append_dropWhile (p := p) (l := l.reverse)
    calc l = l.reverse.reverse := by rw [List.reverse_reverse]
    _ = (l.reverse.takeWhile p ++ l.reverse.dropWhile p).reverse := by rw [h]
    _ = (l.reverse.dropWhile p).reverse ++ (l.reverse.takeWhile p).reverse := by
        rw [List.reverse_append]
  · intro c hc
    exact List.mem_takeWhile_imp (List.mem_reverse.mp hc)

/-- C7 core: the implemented pipeline and the specified pipeline agree. -/
theorem sanitize_table_name_eq_spec (f : String) :
    sanitize_table_name f = sanitizeSpec f := by
  unfold sanitize_table_name sanitizeSpec
  have hcore :
      stripBoth (· = '_')
        (collapseURun false
          ((pyLower (pyStrip (splitextRoot f))).toList.map subNonWord)) =
      stripBoth (· = '_')
        (collapseRunsAux false (pyLower (splitextRoot f)).toList) := by
    rw [collapseURun_map_subNonWord]
    show stripBoth (· = '_')
        (collapseRunsAux false
          ((stripBoth isWsChar (splitextRoot f).toList).map Char.toLower)) =
      stripBoth (· = '_')
        (collapseRunsAux false ((splitextRoot f).toList.map Char.toLower))
    rw [show stripBoth isWsChar (splitextRoot f).toList =
        List.dropWhile isWsChar (dropEndWhile isWsChar (splitextRoot f).toList)
      from rfl]
    rw [← map_toLower_dropWhile, ← map_toLower_dropEnd]
    set L := (splitextRoot f).toList.map Char.toLower with hL
    rw [stripBoth_collapse_dropWs (dropEndWhile isWsChar L)]
    rcases dropEndWhile_decomp isWsChar L with ⟨hdec, hmem⟩
    have hmem2 : ∀ c ∈ (L.reverse.takeWhile isWsChar).reverse,
        isAlnumChar c = false := fun c hc => ws_not_alnum (hmem c hc)
    have happ := stripBoth_collapse_append hmem2 (dropEndWhile isWsChar L) false
    rw [← happ, ← hdec]
  dsimp only
  rw [hcore]

/-! ## JSON values and `json.loads` (Python `json`, strict mode)

The parser models the standard JSON grammar as accepted by Python's
`json.loads`: optional whitespace, objects with string keys (later duplicate
keys shadow earlier ones on lookup, as in a Python dict), arrays, strings
with escapes, numbers (no leading zeros, optional fraction and exponent),
and the three keyword literals. Control characters inside strings are
rejected (strict mode). The nonstandard float literals (NaN, Infinity) are
outside the model; no input in this development contains them. -/

inductive JsonVal where
  | null : JsonVal
  | bool (b : Bool) : JsonVal
  | num (isFloat : Bool) (mant : ℤ) (exp10 : ℤ) : JsonVal
  | str (s : String) : JsonVal
  | arr (items : List JsonVal) : JsonVal
  | obj (members : List (String × JsonVal)) : JsonVal

/-- JSON inter-token whitespace. -/
def isJWs (c : Char) : Bool :=
  c = ' ' || c = '\t' || c = '\n' || c = '\r'

def jSkipWs (l : List Char) : List Char :=
  l.dropWhile isJWs

def hexVal? (c : Char) : Option Nat :=
  if 48 ≤ c.toNat && c.toNat ≤ 57 then some (c.toNat - 48)
  else if 97 ≤ c.toNat && c.toNat ≤ 102 then some (c.toNat - 87)
  else if 65 ≤ c.toNat && c.toNat ≤ 70 then some (c.toNat - 55)
  else none

/-- String body parser, after the opening quote: returns the decoded
characters and the remaining input past the closing quote. -/
def parseJStr : Nat → List Char → Option (List Char × List Char)
  | 0, _ => none
  | _ + 1, [] => none
  | fuel + 1, c :: rest =>
    if c = '"' then some ([], rest)
    else if c = '\\' then
      match rest with
      | [] => none
      | e :: rest2 =>
        if e = 'u' then
          match rest2 with
          | a :: b :: c2 :: d :: rest3 =>
            match hexVal? a, hexVal? b, hexVal? c2, hexVal? d with
            | some ha, some hb, some hc, some hd =>
              let n := ((ha * 16 + hb) * 16 + hc) * 16 + hd
              match parseJStr fuel rest3 with
              | some (cs, r) => some (Char.ofNat n :: cs, r)
              | none => none
            | _, _, _, _ => none
          | _ => none
        else
          let dec? : Option Char :=
            if e = '"' then some '"'
            else if e = '\\' then some '\\'
            else if e = '/' then some '/'
            else if e = 'b' then some (Char.ofNat 8)
            else if e = 'f' then some (Char.ofNat 12)
            else if e = 'n' then some '\n'
            else if e = 'r' then some '\r'
            else if e = 't' then some '\t'
            else none
          match dec? with
          | none => none
          | some ch =>
            match parseJStr fuel rest2 with
            | some (cs, r) => some (ch :: cs, r)
            | none => none
    else if c.toNat < 32 then none
    else
      match parseJStr fuel rest with
      | some (cs, r) => some (c :: cs, r)
      | none => none

def digitsToNat (l : List Char) : Nat :=
  l.foldl (fun a c => a * 10 + (c.toNat - 48)) 0

/-- JSON number parser: `-? int frac? exp?` with no leading zeros. -/
def parseJNum (l : List Char) : Option (JsonVal × List Char) :=
  let (neg, l1) : Bool × List Char :=
    match l with
    | '-' :: t => (true, t)
    | _ => (false, l)
  let ds := l1.takeWhile Char.isDigit
  let l2 := l1.dropWhile Char.isDigit
  if ds = [] then none
  else if 1 < ds.length && ds.headD '0' = '0' then none
  else
    let (fd, l3) : List Char × List Char :=
      match l2 with
      | '.' :: t => (t.takeWhile Char.isDigit, t.dropWhile Char.isDigit)
      | _ => ([], l2)
    if (l2.headD ' ' = '.') && fd = [] then none
    else
      let hasExpTag : Bool :=
        match l3 with
        | 'e' :: _ => true
        | 'E' :: _ => true
        | _ => false
      let l4 := if hasExpTag then l3.tail else l3
      let (eneg, l5) : Bool × List Char :=
        match l4 with
        | '+' :: t => (false, t)
        | '-' :: t => (true, t)
        | _ => (false, l4)
      let ed := l5.takeWhile Char.isDigit
      let l6 := l5.dropWhile Char.isDigit
      if hasExpTag && ed = [] then none
      else
        let mag : ℤ := (digitsToNat (ds ++ fd) : ℤ)
        let mant : ℤ := if neg then -mag else mag
        let e10 : ℤ :=
          (if eneg then -(digitsToNat ed : ℤ) else (digitsToNat ed : ℤ)) -
            (fd.length : ℤ)
        let isFloat := !fd.isEmpty || hasExpTag
        if hasExpTag then some (JsonVal.num isFloat mant e10, l6)
        else some (JsonVal.num isFloat mant e10, l3)

mutual

/-- JSON value parser (fuel-based; every call strictly decreases fuel). -/
def parseJVal : Nat → List Char → Option (JsonVal × List Char)
  | 0, _ => none
  | fuel + 1, l =>
    match jSkipWs l with
    | [] => none
    | c :: rest =>
      if c = '"' then
        match parseJStr (fuel + 1) rest with
        | some (cs, r) => some (JsonVal.str cs.asString, r)
        | none => none
      else if c = '\x7b' then
        match jSkipWs rest with
        | '\x7d' :: r2 => some (JsonVal.obj [], r2)
        | r1 => match parseJMembers fuel r1 with
          | some (ms, r2) => some (JsonVal.obj ms, r2)
          | none => none
      else if c = '[' then
        match jSkipWs rest with
        | ']' :: r2 => some (JsonVal.arr [], r2)
        | r1 => match parseJItems fuel r1 with
          | some (vs, r2) => some (JsonVal.arr vs, r2)
          | none => none
      else if ['t', 'r', 'u', 'e'].isPrefixOf (c :: rest) then
        some (JsonVal.bool true, (c :: rest).drop 4)
      else if ['f', 'a', 'l', 's', 'e'].isPrefixOf (c :: rest) then
        some (JsonVal.bool false, (c :: rest).drop 5)
      else if ['n', 'u', 'l', 'l'].isPrefixOf (c :: rest) then
        some (JsonVal.null, (c :: rest).drop 4)
      else if c = '-' || c.isDigit then parseJNum (c :: rest)
      else none

/-- Comma-separated array items, ending at `]`. -/
def parseJItems : Nat → List Char → Option (List JsonVal × List Char)
  | 0, _ => none
  | fuel + 1, l =>
    match parseJVal fuel l with
    | none => none
    | some (v, r) =>
      match jSkipWs r with
      | ',' :: r2 =>
        match parseJItems fuel r2 with
        | some (vs, r3) => some (v :: vs, r3)
        | none => none
      | ']' :: r2 => some ([v], r2)
      | _ => none

/-- Comma-separated object members, ending at the closing brace. -/
def parseJMembers : Nat → List Char → Option (List (String × JsonVal) × List Char)
  | 0, _ => none
  | fuel + 1, l =>
    match jSkipWs l with
    | '"' :: r0 =>
      match parseJStr fuel r0 with
      | none => none
      | some (ks, r1) =>
        match jSkipWs r1 with
        | ':' :: r2 =>
          match parseJVal fuel r2 with
          | none => none
          | some (v, r3) =>
            match jSkipWs r3 with
            | ',' :: r4 =>
              match parseJMembers fuel r4 with
              | some (ms, r5) => some ((ks.asString, v) :: ms, r5)
              | none => none
            | '\x7d' :: r4 => some ([(ks.asString, v)], r4)
            | _ => none
        | _ => none
    | _ => none

end

/-- `json.loads`: parse a complete JSON document; trailing whitespace only. -/
def json_loads (s : String) : Option JsonVal :=
  match parseJVal (2 * s.length + 8) s.toList with
  | some (v, rest) => if jSkipWs rest = [] then some v else none
  | none => none

/-- Python dict lookup for a parsed object: the last binding of a duplicated
key wins, as in the dict produced by `json.loads`. -/
def objGet : List (String × JsonVal) → String → Option JsonVal
  | [], _ => none
  | (k, v) :: rest, key =>
    match objGet rest key with
    | some w => some w
    | none => if k = key then some v else none

/-- `d.get(key, default)` on a parsed object. -/
def jget (m : List (String × JsonVal)) (key : String) (dflt : JsonVal) : JsonVal :=
  (objGet m key).getD dflt

/-- Python truthiness of a decoded JSON value. -/
def truthy : JsonVal → Bool
  | .null => false
  | .bool b => b
  | .num _ mant _ => mant ≠ 0
  | .str s => s ≠ ""
  | .arr l => !l.isEmpty
  | .obj m => !m.isEmpty

example : json_loads "\x7b\"sql\":\"select 1\"\x7d" =
    some (JsonVal.obj [("sql", JsonVal.str "select 1")]) := rfl
example : json_loads "not json at all" = none := rfl
example : json_loads " [1, true, null, \"a\"] " =
    some (JsonVal.arr [JsonVal.num false 1 0, JsonVal.bool true, JsonVal.null,
      JsonVal.str "a"]) := rfl
example : json_loads "-12.5e1" = some (JsonVal.num true (-125) 0) := rfl
example : json_loads "01" = none := rfl
example : json_loads "\x7b\"a\":1,\"a\":2\x7d" =
    some (JsonVal.obj [("a", JsonVal.num false 1 0), ("a", JsonVal.num false 2 0)]) := rfl
example : jget [("a", JsonVal.num false 1 0), ("a", JsonVal.num false 2 0)] "a"
    JsonVal.null = JsonVal.num false 2 0 := rfl

/-! ## Response extraction (main.py lines 116-131) -/

/-- Python `str.replace(pat, "")`: delete every non-overlapping occurrence of
`pat`, scanning left to right. Fuel is the input length; every step consumes
at least one character when `pat` is non-empty. -/
def removeAllAux (pat : List Char) : Nat → List Char → List Char
  | 0, l => l
  | _ + 1, [] => []
  | fuel + 1, c :: rest =>
    if pat.isPrefixOf (c :: rest) then
      removeAllAux pat fuel ((c :: rest).drop pat.length)
    else c :: removeAllAux pat fuel rest

/-- Python `s.replace(pat, "")`. -/
def pyRemoveAll (s pat : String) : String :=
  (removeAllAux pat.toList s.toList.length s.toList).asString

/-- Line 117: `text.strip().replace("```json", "").replace("```", "").strip()`. -/
def cleanText (s : String) : String :=
  pyStrip (pyRemoveAll (pyRemoveAll (pyStrip s) "```json") "```")

/-- `re.search(r"\x7b.*\x7d", text, re.DOTALL)`: the substring from the first
opening brace to the last closing brace, when the first opening brace comes
before the last closing brace. -/
def braceSub? (s : String) : Option String :=
  let l := s.toList
  match l.findIdx? (· = '\x7b'), lastIdx? (· = '\x7d') l with
  | some i, some j =>
    if i < j then some (((l.drop i).take (j - i + 1)).asString) else none
  | _, _ => none

/-- `extract_json` from main.py lines 116-131. Note that the greedy brace
search runs on the cleaned text (the local variable `text` is reassigned on
line 117 before `re.search` reads it on line 124). -/
def extract_json (s : String) : Except String JsonVal :=
  let cleaned := cleanText s
  match json_loads cleaned with
  | some v => Except.ok v
  | none =>
    match braceSub? cleaned with
    | some sub =>
      match json_loads sub with
      | some v => Except.ok v
      | none => Except.error "Invalid JSON block from AI response"
    | none => Except.error "Invalid JSON from AI"

/-- Modelled from the spec (section 4.4, claim C4): the same staged
algorithm, except that the greedy brace recovery searches the ORIGINAL text,
as the spec words it, rather than the cleaned text. -/
def extractSpecC4 (s : String) : Except String JsonVal :=
  let cleaned := cleanText s
  match json_loads cleaned with
  | some v => Except.ok v
  | none =>
    match braceSub? s with
    | some sub =>
      match json_loads sub with
      | some v => Except.ok v
      | none => Except.error "Invalid JSON block from AI response"
    | none => Except.error "Invalid JSON from AI"

example : extract_json "```json\n\x7b\"sql\":\"select 1\"\x7d\n```" =
    Except.ok (JsonVal.obj [("sql", JsonVal.str "select 1")]) := rfl
example : extract_json "Here you go: \x7b\"sql\":\"select 1\"\x7d Hope that helps!" =
    Except.ok (JsonVal.obj [("sql", JsonVal.str "select 1")]) := rfl
example : extract_json "not json at all" = Except.error "Invalid JSON from AI" := rfl
example : extract_json "x \x7b\"a\": \"```\"\x7d y" =
    Except.ok (JsonVal.obj [("a", JsonVal.str "")]) := rfl
example : extractSpecC4 "x \x7b\"a\": \"```\"\x7d y" =
    Except.ok (JsonVal.obj [("a", JsonVal.str "```")]) := rfl

/-! ## Query gate and executor (main.py lines 187-203)

The sqlite engine behind `execute_sql` is an external collaborator and is
passed in as a function from the SQL text to either rows or an engine error
message (`str(exc)` of whatever `pandas.read_sql_query` raised). -/

/-- A result row, as produced by `df.to_dict(orient="records")`. -/
abbrev Row := List (String × JsonVal)

inductive QueryResult where
  | rows (rs : List Row)
  | err (msg : String)

/-- The shape of the dictionary returned on main.py lines 196-203. -/
structure GenResponse where
  sql : JsonVal
  python : JsonVal
  pyspark : JsonVal
  explanation : JsonVal
  warning : JsonVal
  result : Option QueryResult

/-- Python type name, used in the `AttributeError` message raised when the
gate expression calls `.strip()` on a non-string truthy `sql` value. -/
def pyTypeName : JsonVal → String
  | .null => "NoneType"
  | .bool _ => "bool"
  | .num false _ _ => "int"
  | .num true _ _ => "float"
  | .str _ => "str"
  | .arr _ => "list"
  | .obj _ => "dict"

/-- Evaluation of the gate expression on line 191:
`sql and sql.strip().lower().startswith("select") and not
ai_json.get("is_modification", False)`. The expression itself can raise
(caught on line 193) when `sql` is truthy but not a string. -/
def sqlGateEval (cmd : List (String × JsonVal)) : Except String Bool :=
  match jget cmd "sql" (JsonVal.str "") with
  | JsonVal.str s =>
    Except.ok (s ≠ "" && pyStartsWith (pyLower (pyStrip s)) "select" &&
      !truthy (jget cmd "is_modification" (JsonVal.bool false)))
  | v =>
    if truthy v then
      Except.error ("'" ++ pyTypeName v ++ "' object has no attribute 'strip'")
    else Except.ok false

/-- Lines 187-203 of `generate_sql`, from the extracted command object to
the response. The Boolean records whether the engine was invoked. -/
def generate_sql_tail (cmd : List (String × JsonVal))
    (engine : String → Except String (List Row)) : GenResponse × Bool :=
  let sqlv := jget cmd "sql" (JsonVal.str "")
  let sqlTxt : String :=
    match sqlv with
    | JsonVal.str s => s
    | _ => ""
  let re : Option QueryResult × Bool :=
    match sqlGateEval cmd with
    | Except.error m => (some (QueryResult.err m), false)
    | Except.ok false => (none, false)
    | Except.ok true =>
      match engine sqlTxt with
      | Except.ok rs => (some (QueryResult.rows rs), true)
      | Except.error m => (some (QueryResult.err m), true)
  ({ sql := sqlv
     python := jget cmd "python" (JsonVal.str "")
     pyspark := jget cmd "pyspark" (JsonVal.str "")
     explanation := jget cmd "explanation" (JsonVal.str "")
     warning := jget cmd "warning" (JsonVal.str "")
     result := re.1 }, re.2)

/-! ## Upload pipeline (main.py lines 64-104)

The pandas readers are external collaborators, passed in as one parser per
recognized format. The sqlite database at `DB_PATH` is modelled as an
association list from table name to loaded frame; `df.to_sql(...,
if_exists="replace")` replaces the table of the same name and otherwise adds
a new one, and nothing ever drops a table. The registry `schemas_global` is
the second component of the application state. -/

/-- The projection of a parsed `pandas.DataFrame` visible to the embedded
code: its column names (echoed into the schema line) and its tabular
payload (stored, but never inspected, by `to_sql`). -/
structure Frame where
  cols : List String
  rows : List (List String)
deriving DecidableEq

/-- One reader per recognized extension (lines 83-88). -/
structure Parsers where
  csv : String → Except String Frame
  xlsx : String → Except String Frame
  tsv : String → Except String Frame

/-- One uploaded file: its name and its raw byte content. -/
structure UFile where
  filename : String
  content : String
deriving DecidableEq

/-- `ALLOWED_EXTENSIONS` (line 19). -/
def allowedExt (e : String) : Bool :=
  e = ".csv" || e = ".xlsx" || e = ".tsv"

/-- Dispatch on extension, lines 83-88 (the final branch is `.tsv`). -/
def parseBy (p : Parsers) (ext content : String) : Except String Frame :=
  if ext = ".csv" then p.csv content
  else if ext = ".xlsx" then p.xlsx content
  else p.tsv content

/-- The sqlite table set. -/
abbrev Store := List (String × Frame)

/-- `df.to_sql(name, conn, if_exists="replace")`: replace the table of the
same name in place, or add a new one. -/
def storePut : Store → String → Frame → Store
  | [], n, fr => [(n, fr)]
  | (m, g) :: rest, n, fr =>
    if m = n then (n, fr) :: rest else (m, g) :: storePut rest n fr

def storeGet : Store → String → Option Frame
  | [], _ => none
  | (m, g) :: rest, n => if m = n then some g else storeGet rest n

/-- Line 92-93: `f"{table_name}({columns})"`. -/
def schemaLine (tn : String) (fr : Frame) : String :=
  tn ++ "(" ++ String.intercalate ", " fr.cols ++ ")"

/-- Outcome of the upload loop: the mutated store, the schema lines built so
far, and the exception that aborted the loop, if any. -/
structure BatchStep where
  store : Store
  schemas : List String
  failure : Option String
deriving DecidableEq

/-- The `for file in files` loop of lines 73-93. Unrecognized extensions and
empty contents are skipped; the first parse failure aborts the loop with the
store already containing every table loaded before it. -/
def processFiles (p : Parsers) : Store → List String → List UFile → BatchStep
  | store, schemas, [] => ⟨store, schemas, none⟩
  | store, schemas, f :: rest =>
    let ext := pyLower (splitextExt f.filename)
    if !allowedExt ext then processFiles p store schemas rest
    else if f.content = "" then processFiles p store schemas rest
    else
      match parseBy p ext f.content with
      | Except.error e => ⟨store, schemas, some e⟩
      | Except.ok df =>
        let tn := sanitize_table_name f.filename
        processFiles p (storePut store tn df) (schemas ++ [schemaLine tn df]) rest

/-- Process-wide mutable state: the sqlite database and `schemas_global`. -/
structure AppState where
  store : Store
  registry : List String
deriving DecidableEq

structure UploadResp where
  message : String
  schemas : List String
deriving DecidableEq

/-- `upload_files` from main.py lines 64-104. On success the registry is
replaced wholesale by the schema lines of this batch (lines 95-97); on
failure the handler re-raises (lines 100-102) after the loop has already
written the earlier tables, and the registry is untouched. -/
def upload_files (p : Parsers) (st : AppState) (files : List UFile) :
    Except String UploadResp × AppState :=
  if files.isEmpty then (Except.error "No files provided", st)
  else
    let step := processFiles p st.store [] files
    match step.failure with
    | some e =>
      (Except.error ("Upload failed: " ++ e),
        { store := step.store, registry := st.registry })
    | none =>
      (Except.ok { message := "Files uploaded", schemas := step.schemas },
        { store := step.store, registry := step.schemas })

/-- Concrete parsers for witnesses: the column list is the raw content, and
the content "BAD" is unparseable. -/
def demoParsers : Parsers where
  csv := fun c => if c = "BAD" then Except.error "bad parse" else Except.ok ⟨[c], []⟩
  xlsx := fun c => Except.ok ⟨[c], []⟩
  tsv := fun c => Except.ok ⟨[c], []⟩

example : (upload_files demoParsers ⟨[], []⟩ [⟨"a.csv", "x"⟩]).2 =
    ⟨[("a", ⟨["x"], []⟩)], ["a(x)"]⟩ := rfl
example :
    (upload_files demoParsers ⟨[("a", ⟨["x"], []⟩)], ["a(x)"]⟩ [⟨"b.csv", "y"⟩]).2 =
    ⟨[("a", ⟨["x"], []⟩), ("b", ⟨["y"], []⟩)], ["b(y)"]⟩ := rfl
example : (upload_files demoParsers ⟨[], ["old"]⟩
    [⟨"a.csv", "x"⟩, ⟨"b.csv", "BAD"⟩, ⟨"c.csv", "y"⟩]).1 =
    Except.error "Upload failed: bad parse" := rfl
example : (upload_files demoParsers ⟨[], ["old"]⟩
    [⟨"a.csv", "x"⟩, ⟨"b.csv", "BAD"⟩, ⟨"c.csv", "y"⟩]).2 =
    ⟨[("a", ⟨["x"], []⟩)], ["old"]⟩ := rfl

/-! ## Lock-protected registry replacement (claim C8)

An interleaving model of one writer executing lines 95-97 of `upload_files`
(`with schema_lock: schemas_global.clear(); schemas_global.extend(...)`,
with the extension appending one element per step) against one reader
executing lines 139-140 of `generate_sql`
(`with schema_lock: available_schemas = list(schemas_global)`). The mutex
is the `schema_lock` of line 40. Each program-counter step is one atomic
transition; any interleaving that respects the lock is a behaviour. -/

/-- A configuration: registry content, lock owner (`some true` = writer,
`some false` = reader), writer program counter and append index, reader
program counter, and the snapshot the reader copied, once taken. -/
structure RegCfg where
  reg : List String
  lockHeld : Option Bool
  wpc : Nat
  widx : Nat
  rpc : Nat
  snap : Option (List String)

/-- `old` is the registry content before the writer runs; `new` is the
batch it installs. Writer: acquire, clear, append each element, release.
Reader: acquire, copy, release. -/
inductive RegStep (old new : List String) : RegCfg → RegCfg → Prop where
  | wAcquire (c : RegCfg) (h1 : c.wpc = 0) (h2 : c.lockHeld = none) :
      RegStep old new c { c with lockHeld := some true, wpc := 1 }
  | wClear (c : RegCfg) (h1 : c.wpc = 1) :
      RegStep old new c { c with reg := [], widx := 0, wpc := 2 }
  | wAppend (c : RegCfg) (h1 : c.wpc = 2) (h2 : c.widx < new.length) :
      RegStep old new c
        { c with reg := c.reg ++ [new.get ⟨c.widx, h2⟩], widx := c.widx + 1 }
  | wFinish (c : RegCfg) (h1 : c.wpc = 2) (h2 : c.widx = new.length) :
      RegStep old new c { c with wpc := 3 }
  | wRelease (c : RegCfg) (h1 : c.wpc = 3) :
      RegStep old new c { c with lockHeld := none, wpc := 4 }
  | rAcquire (c : RegCfg) (h1 : c.rpc = 0) (h2 : c.lockHeld = none) :
      RegStep old new c { c with lockHeld := some false, rpc := 1 }
  | rCopy (c : RegCfg) (h1 : c.rpc = 1) :
      RegStep old new c { c with snap := some c.reg, rpc := 2 }
  | rRelease (c : RegCfg) (h1 : c.rpc = 2) :
      RegStep old new c { c with lockHeld := none, rpc := 3 }

/-- Initial configuration: registry holds the old content, the lock is
free, both threads are before their critical sections. -/
def initCfg (old : List String) : RegCfg :=
  ⟨old, none, 0, 0, 0, none⟩

/-- Configurations reachable by lock-respecting interleavings. -/
def RegReach (old new : List String) (c : RegCfg) : Prop :=
  Relation.ReflTransGen (RegStep old new) (initCfg old) c

/-- Inductive invariant: the lock discipline ties the registry content to
the writer's program counter, and any snapshot ever taken is one of the two
complete states. -/
def RegInv (old new : List String) (c : RegCfg) : Prop :=
  c.wpc ≤ 4 ∧
  ((c.wpc = 1 ∨ c.wpc = 2 ∨ c.wpc = 3) → c.lockHeld = some true) ∧
  ((c.rpc = 1 ∨ c.rpc = 2) → c.lockHeld = some false) ∧
  ((c.wpc = 0 ∨ c.wpc = 1) → c.reg = old) ∧
  (c.wpc = 2 → c.reg = new.take c.widx ∧ c.widx ≤ new.length) ∧
  ((c.wpc = 3 ∨ c.wpc = 4) → c.reg = new) ∧
  (∀ s, c.snap = some s → s = old ∨ s = new)

theorem regInv_init (old new : List String) : RegInv old new (initCfg old) := by
  refine ⟨by simp [initCfg], ?_, ?_, ?_, ?_, ?_, ?_⟩ <;> simp [initCfg]

theorem regInv_step {old new : List String} {c c' : RegCfg}
    (h : RegStep old new c c') (hinv : RegInv old new c) : RegInv old new c' := by
  obtain ⟨hb, hwl, hrl, h01, h2, h34, hsnap⟩ := hinv
  cases h with
  | wAcquire h1 hl =>
    refine ⟨?_, ?_, ?_, ?_, ?_, ?_, ?_⟩ <;> dsimp only
    · omega
    · exact fun _ => rfl
    · intro hr
      exact Option.noConfusion (hl ▸ hrl hr)
    · exact fun _ => h01 (Or.inl h1)
    · omega
    · omega
    · exact hsnap
  | wClear h1 =>
    have hlk := hwl (Or.inl h1)
    refine ⟨?_, ?_, ?_, ?_, ?_, ?_, ?_⟩ <;> dsimp only
    · omega
    · exact fun _ => hlk
    · exact fun hr => hrl hr
    · omega
    · intro _
      exact ⟨by rw [List.take_zero], by omega⟩
    · omega
    · exact hsnap
  | wAppend h1 hlt =>
    have hlk := hwl (Or.inr (Or.inl h1))
    obtain ⟨hreg, hle⟩ := h2 h1
    refine ⟨?_, ?_, ?_, ?_, ?_, ?_, ?_⟩ <;> dsimp only
    · omega
    · exact fun _ => hlk
    · exact fun hr => hrl hr
    · intro hw
      omega
    · intro _
      refine ⟨?_, by omega⟩
      rw [hreg]
      have hcg := List.take_concat_get new c.widx hlt
      rw [List.concat_eq_append] at hcg
      simp only [List.get_eq_getElem]
      exact hcg
    · intro hw
      omega
    · exact hsnap
  | wFinish h1 hei =>
    have hlk := hwl (Or.inr (Or.inl h1))
    obtain ⟨hreg, _⟩ := h2 h1
    refine ⟨?_, ?_, ?_, ?_, ?_, ?_, ?_⟩ <;> dsimp only
    · omega
    · exact fun _ => hlk
    · exact fun hr => hrl hr
    · omega
    · omega
    · intro _
      rw [hreg, hei, List.take_length]
    · exact hsnap
  | wRelease h1 =>
    have hreg := h34 (Or.inl h1)
    refine ⟨?_, ?_, ?_, ?_, ?_, ?_, ?_⟩ <;> dsimp only
    · omega
    · omega
    · intro hr
      exact absurd ((hrl hr).symm.trans (hwl (Or.inr (Or.inr h1)))) (by simp)
    · omega
    · omega
    · exact fun _ => hreg
    · exact hsnap
  | rAcquire h1 hl =>
    refine ⟨?_, ?_, ?_, ?_, ?_, ?_, ?_⟩ <;> dsimp only
    · exact hb
    · intro hw
      exact Option.noConfusion (hl ▸ hwl hw)
    · exact fun _ => rfl
    · exact h01
    · exact h2
    · exact h34
    · exact hsnap
  | rCopy h1 =>
    have hlk := hrl (Or.inl h1)
    have hwnot : ¬(c.wpc = 1 ∨ c.wpc = 2 ∨ c.wpc = 3) := by
      intro hw
      exact absurd ((hwl hw).symm.trans hlk) (by simp)
    refine ⟨hb, hwl, ?_, h01, h2, h34, ?_⟩ <;> dsimp only
    · exact fun _ => hlk
    · intro s hs
      have hs2 : c.reg = s := by
        injection hs
      have hw04 : c.wpc = 0 ∨ c.wpc = 4 := by omega
      rcases hw04 with hw | hw
      · exact Or.inl (hs2 ▸ h01 (Or.inl hw))
      · exact Or.inr (hs2 ▸ h34 (Or.inr hw))
  | rRelease h1 =>
    refine ⟨hb, ?_, ?_, h01, h2, h34, hsnap⟩ <;> dsimp only
    · intro hw
      exact absurd ((hwl hw).symm.trans (hrl (Or.inr h1))) (by simp)
    · omega

theorem regInv_reach {old new : List String} {c : RegCfg}
    (h : RegReach old new c) : RegInv old new c := by
  induction h with
  | refl => exact regInv_init old new
  | tail _ hstep ih => exact regInv_step hstep ih

/-! ## Claim theorems -/

/-- Closed form of `generate_sql_tail` when the `sql` field decodes to a
string (the case the gate never raises in). -/
theorem generate_sql_tail_eq (cmd : List (String × JsonVal))
    (engine : String → Except String (List Row)) (s : String)
    (hs : jget cmd "sql" (JsonVal.str "") = JsonVal.str s) :
    generate_sql_tail cmd engine =
      ({ sql := JsonVal.str s
         python := jget cmd "python" (JsonVal.str "")
         pyspark := jget cmd "pyspark" (JsonVal.str "")
         explanation := jget cmd "explanation" (JsonVal.str "")
         warning := jget cmd "warning" (JsonVal.str "")
         result :=
           if s ≠ "" && pyStartsWith (pyLower (pyStrip s)) "select" &&
               !truthy (jget cmd "is_modification" (JsonVal.bool false)) then
             match engine s with
             | Except.ok rs => some (QueryResult.rows rs)
             | Except.error m => some (QueryResult.err m)
           else none },
       s ≠ "" && pyStartsWith (pyLower (pyStrip s)) "select" &&
         !truthy (jget cmd "is_modification" (JsonVal.bool false))) := by
  unfold generate_sql_tail sqlGateEval
  rw [hs]
  dsimp only
  cases hG : (s ≠ "" && pyStartsWith (pyLower (pyStrip s)) "select" &&
      !truthy (jget cmd "is_modification" (JsonVal.bool false))) with
  | false => rfl
  | true =>
    dsimp only
    cases engine s <;> rfl

theorem strip_ne_of_startsWith {s : String}
    (h : pyStartsWith (pyLower (pyStrip s)) "select" = true) : pyStrip s ≠ "" := by
  intro hstrip
  rw [hstrip] at h
  exact absurd h (by decide)

theorem ne_empty_of_strip_ne {s : String} (h : pyStrip s ≠ "") : s ≠ "" := by
  intro hs
  apply h
  rw [hs]
  rfl

/-- C1: a Structured Command's SQL is executed against the store if and only
if all three gate conditions hold — the `sql` text is non-empty after
trimming, `is_modification` is false (or absent, defaulting to false), and
the trimmed lower-cased text begins with `select` — and whenever the gate
fails, no execution happens and the `result` field is `none`, not an error
value. The command is quantified over the shapes the spec gives it: `sql`
absent or a string, `is_modification` absent or a boolean. -/
theorem C1_gate_characterization (cmd : List (String × JsonVal))
    (engine : String → Except String (List Row)) (s : String) (b : Bool)
    (hs : jget cmd "sql" (JsonVal.str "") = JsonVal.str s)
    (hb : jget cmd "is_modification" (JsonVal.bool false) = JsonVal.bool b) :
    ((generate_sql_tail cmd engine).2 = true ↔
      (pyStrip s ≠ "" ∧ pyStartsWith (pyLower (pyStrip s)) "select" = true ∧
        b = false)) ∧
    ((generate_sql_tail cmd engine).2 = false →
      (generate_sql_tail cmd engine).1.result = none) := by
  rw [generate_sql_tail_eq cmd engine s hs, hb]
  constructor
  · constructor
    · intro hg
      dsimp only at hg
      simp only [Bool.and_eq_true, Bool.not_eq_true', decide_eq_true_eq] at hg
      obtain ⟨⟨hne, hsel⟩, hmod⟩ := hg
      exact ⟨strip_ne_of_startsWith hsel, hsel, by simpa using hmod⟩
    · intro ⟨hne, hsel, hmod⟩
      dsimp only
      simp only [Bool.and_eq_true, Bool.not_eq_true', decide_eq_true_eq]
      exact ⟨⟨ne_empty_of_strip_ne hne, hsel⟩, by simpa using hmod⟩
  · intro hg
    dsimp only at hg ⊢
    rw [hg]
    rfl

/-- C1 witness: `sql = "DROP TABLE x"` with `is_modification: false` is not
executed and its `result` is `none`. -/
theorem C1_gate_characterization_witness :
    (generate_sql_tail
        [("sql", JsonVal.str "DROP TABLE x"), ("is_modification", JsonVal.bool false)]
        (fun _ => Except.ok [])).1.result = none ∧
    (generate_sql_tail
        [("sql", JsonVal.str "DROP TABLE x"), ("is_modification", JsonVal.bool false)]
        (fun _ => Except.ok [])).2 = false :=
  ⟨(C1_gate_characterization
      [("sql", JsonVal.str "DROP TABLE x"), ("is_modification", JsonVal.bool false)]
      (fun _ => Except.ok []) "DROP TABLE x" false rfl rfl).2 rfl, rfl⟩

/-- C2: when the gate passes but the engine fails, the failure is contained:
the response is still produced, its `result` is the error value carrying the
engine message, and the `sql`, `python`, `pyspark`, `explanation` and
`warning` fields are exactly the ones recovered from the extracted command,
unchanged by the failure. -/
theorem C2_engine_failure_contained (cmd : List (String × JsonVal))
    (engine : String → Except String (List Row)) (s msg : String)
    (hs : jget cmd "sql" (JsonVal.str "") = JsonVal.str s)
    (hgate : (generate_sql_tail cmd engine).2 = true)
    (heng : engine s = Except.error msg) :
    (generate_sql_tail cmd engine).1 =
      { sql := JsonVal.str s
        python := jget cmd "python" (JsonVal.str "")
        pyspark := jget cmd "pyspark" (JsonVal.str "")
        explanation := jget cmd "explanation" (JsonVal.str "")
        warning := jget cmd "warning" (JsonVal.str "")
        result := some (QueryResult.err msg) } := by
  have he := generate_sql_tail_eq cmd engine s hs
  rw [he] at hgate
  dsimp only at hgate
  rw [he]
  dsimp only
  rw [hgate, heng]
  rfl

/-- C2 witness: a syntactically invalid `select` against a failing engine
yields `result = err` with the extracted fields intact. -/
theorem C2_engine_failure_contained_witness :
    (generate_sql_tail
        [("sql", JsonVal.str "select x from nope"), ("explanation", JsonVal.str "because")]
        (fun _ => Except.error "no such table: nope")).1 =
      { sql := JsonVal.str "select x from nope"
        python := JsonVal.str ""
        pyspark := JsonVal.str ""
        explanation := JsonVal.str "because"
        warning := JsonVal.str ""
        result := some (QueryResult.err "no such table: nope") } :=
  C2_engine_failure_contained
    [("sql", JsonVal.str "select x from nope"), ("explanation", JsonVal.str "because")]
    (fun _ => Except.error "no such table: nope") "select x from nope"
    "no such table: nope" rfl rfl rfl

/-- C9: the gate applies Python truthiness to `is_modification`: any truthy
value — including non-boolean ones such as the string "false" or the number
1 — blocks execution and leaves `result` as `none`; execution happens only
when the value is falsy or the field is absent (and the string checks
pass). -/
theorem C9_truthiness_gate (cmd : List (String × JsonVal))
    (engine : String → Except String (List Row)) (s : String)
    (hs : jget cmd "sql" (JsonVal.str "") = JsonVal.str s) :
    ((generate_sql_tail cmd engine).2 = true ↔
      (s ≠ "" ∧ pyStartsWith (pyLower (pyStrip s)) "select" = true ∧
        truthy (jget cmd "is_modification" (JsonVal.bool false)) = false)) ∧
    (truthy (jget cmd "is_modification" (JsonVal.bool false)) = true →
      (generate_sql_tail cmd engine).2 = false ∧
        (generate_sql_tail cmd engine).1.result = none) := by
  rw [generate_sql_tail_eq cmd engine s hs]
  constructor
  · dsimp only
    simp only [Bool.and_eq_true, Bool.not_eq_true', decide_eq_true_eq]
    constructor
    · intro ⟨⟨hne, hsel⟩, hmod⟩
      exact ⟨hne, hsel, hmod⟩
    · intro ⟨hne, hsel, hmod⟩
      exact ⟨⟨hne, hsel⟩, hmod⟩
  · intro htr
    dsimp only
    rw [htr]
    simp

/-- C9 witness: `is_modification` of `"false"` (a truthy string) and of `1`
(a truthy number) both block execution with `result = none`, while an absent
`is_modification` lets a `select` run. -/
theorem C9_truthiness_gate_witness :
    ((generate_sql_tail
        [("sql", JsonVal.str "select 1"), ("is_modification", JsonVal.str "false")]
        (fun _ => Except.ok [])).2 = false ∧
      (generate_sql_tail
        [("sql", JsonVal.str "select 1"), ("is_modification", JsonVal.str "false")]
        (fun _ => Except.ok [])).1.result = none) ∧
    ((generate_sql_tail
        [("sql", JsonVal.str "select 1"), ("is_modification", JsonVal.num false 1 0)]
        (fun _ => Except.ok [])).2 = false ∧
      (generate_sql_tail
        [("sql", JsonVal.str "select 1"), ("is_modification", JsonVal.num false 1 0)]
        (fun _ => Except.ok [])).1.result = none) ∧
    (generate_sql_tail [("sql", JsonVal.str "select 1")]
        (fun _ => Except.ok [])).2 = true := by
  refine ⟨?_, ?_, ?_⟩
  · exact (C9_truthiness_gate
      [("sql", JsonVal.str "select 1"), ("is_modification", JsonVal.str "false")]
      (fun _ => Except.ok []) "select 1" rfl).2 rfl
  · exact (C9_truthiness_gate
      [("sql", JsonVal.str "select 1"), ("is_modification", JsonVal.num false 1 0)]
      (fun _ => Except.ok []) "select 1" rfl).2 rfl
  · exact (C9_truthiness_gate [("sql", JsonVal.str "select 1")]
      (fun _ => Except.ok []) "select 1" rfl).1.mpr ⟨by decide, by decide, rfl⟩

/-- C4 counterexample: on the input `x \x7b"a": "³"\x7d y` with three
backticks in place of `³`, the implementation runs the greedy brace search
on the CLEANED text (line 124 reads the reassigned variable), so the fences
inside the string literal are deleted before recovery, while the claimed
algorithm (greedy match on the ORIGINAL text) would recover the braced
substring with the backticks intact. The two disagree. -/
theorem C4_counterexample :
    extract_json "x \x7b\"a\": \"```\"\x7d y" =
      Except.ok (JsonVal.obj [("a", JsonVal.str "")]) ∧
    extractSpecC4 "x \x7b\"a\": \"```\"\x7d y" =
      Except.ok (JsonVal.obj [("a", JsonVal.str "```")]) ∧
    extract_json "x \x7b\"a\": \"```\"\x7d y" ≠
      extractSpecC4 "x \x7b\"a\": \"```\"\x7d y" := by
  refine ⟨rfl, rfl, ?_⟩
  intro h
  rw [show extract_json "x \x7b\"a\": \"```\"\x7d y" =
      Except.ok (JsonVal.obj [("a", JsonVal.str "")]) from rfl,
    show extractSpecC4 "x \x7b\"a\": \"```\"\x7d y" =
      Except.ok (JsonVal.obj [("a", JsonVal.str "```")]) from rfl] at h
  simp at h

/-- C4 (amended): extraction strips whitespace and fence markers, attempts a
direct parse of the cleaned text, and if that fails parses the substring of
the CLEANED text (not the original) from its first opening brace to its last
closing brace; the fenced and the prose-wrapped examples both yield a
command with `sql = "select 1"`. -/
theorem C4_extraction_staged :
    (∀ s v, json_loads (cleanText s) = some v → extract_json s = Except.ok v) ∧
    (∀ s sub, json_loads (cleanText s) = none →
      braceSub? (cleanText s) = some sub →
      extract_json s =
        (match json_loads sub with
         | some v => Except.ok v
         | none => Except.error "Invalid JSON block from AI response")) ∧
    extract_json "```json\n\x7b\"sql\":\"select 1\"\x7d\n```" =
      Except.ok (JsonVal.obj [("sql", JsonVal.str "select 1")]) ∧
    extract_json "Here you go: \x7b\"sql\":\"select 1\"\x7d Hope that helps!" =
      Except.ok (JsonVal.obj [("sql", JsonVal.str "select 1")]) := by
  refine ⟨?_, ?_, rfl, rfl⟩
  · intro s v h
    unfold extract_json
    dsimp only
    rw [h]
  · intro s sub h1 h2
    unfold extract_json
    dsimp only
    rw [h1, h2]

/-- C4 witness: the direct-parse stage applied at a concrete input. -/
theorem C4_extraction_staged_witness :
    extract_json " \x7b\x7d " = Except.ok (JsonVal.obj []) :=
  C4_extraction_staged.1 " \x7b\x7d " (JsonVal.obj []) rfl

/-- C6 counterexample: on `"not json at all"` both attempts fail and the
code raises `ValueError("Invalid JSON from AI")` (line 131) — a fixed
diagnostic that does NOT carry the raw input text, contrary to the claim. -/
theorem C6_counterexample :
    extract_json "not json at all" = Except.error "Invalid JSON from AI" ∧
    ¬ List.IsInfix "not json at all".toList "Invalid JSON from AI".toList := by
  refine ⟨rfl, ?_⟩
  decide

/-- C6 (amended): on every input where both the direct parse of the cleaned
text and the greedy-brace parse fail, extraction fails with one of the two
fixed `ValueError` diagnostics and never returns a command — but the
diagnostic does not carry the raw input text. -/
theorem C6_both_fail_error (s : String)
    (h1 : json_loads (cleanText s) = none)
    (h2 : ∀ sub, braceSub? (cleanText s) = some sub → json_loads sub = none) :
    (extract_json s = Except.error "Invalid JSON from AI" ∨
      extract_json s = Except.error "Invalid JSON block from AI response") ∧
    ∀ v, extract_json s ≠ Except.ok v := by
  have hmain : extract_json s = Except.error "Invalid JSON from AI" ∨
      extract_json s = Except.error "Invalid JSON block from AI response" := by
    unfold extract_json
    dsimp only
    rw [h1]
    cases hb : braceSub? (cleanText s) with
    | none => exact Or.inl rfl
    | some sub =>
      dsimp only
      rw [h2 sub hb]
      exact Or.inr rfl
  refine ⟨hmain, ?_⟩
  intro v hv
  rcases hmain with h | h <;> rw [hv] at h <;> exact Except.noConfusion h

/-- C6 witness: the amended claim applied to `"not json at all"`. -/
theorem C6_both_fail_error_witness :
    (extract_json "not json at all" = Except.error "Invalid JSON from AI" ∨
      extract_json "not json at all" =
        Except.error "Invalid JSON block from AI response") ∧
    ∀ v, extract_json "not json at all" ≠ Except.ok v :=
  C6_both_fail_error "not json at all" rfl
    (fun _ h => Option.noConfusion h)

/-- C7: for every source filename the derived table name follows the
specified pipeline — lower-case the basename, collapse every run of
non-alphanumeric characters to a single underscore, strip leading and
trailing underscores, fall back to a constant when empty — and in
particular `"Sales Report (2024).csv"` derives `sales_report_2024`. -/
theorem C7_table_name_derivation :
    (∀ f, sanitize_table_name f = sanitizeSpec f) ∧
    sanitize_table_name "Sales Report (2024).csv" = "sales_report_2024" :=
  ⟨sanitize_table_name_eq_spec, by decide⟩

theorem storeGet_storePut (st : Store) (m n : String) (fr : Frame) :
    storeGet (storePut st m fr) n = if m = n then some fr else storeGet st n := by
  induction st with
  | nil => rfl
  | cons hd tl ih =>
    obtain ⟨k, g⟩ := hd
    simp only [storePut]
    by_cases hk : k = m
    · rw [if_pos hk]
      simp only [storeGet]
      by_cases hn : m = n
      · rw [if_pos hn, if_pos hn]
      · rw [if_neg hn, if_neg hn, if_neg (by rw [hk]; exact hn)]
    · rw [if_neg hk]
      simp only [storeGet, ih]
      by_cases hn : k = n
      · rw [if_pos hn, if_neg (by rw [← hn]; exact fun hmn => hk hmn.symm), if_pos hn]
      · rw [if_neg hn, if_neg hn]

theorem processFiles_store_mono (p : Parsers) (files : List UFile) :
    ∀ store sch n fr, storeGet store n = some fr →
      ∃ g, storeGet (processFiles p store sch files).store n = some g := by
  induction files with
  | nil =>
    intro store sch n fr h
    exact ⟨fr, h⟩
  | cons f rest ih =>
    intro store sch n fr h
    simp only [processFiles]
    by_cases hex : (!allowedExt (pyLower (splitextExt f.filename))) = true
    · rw [if_pos hex]
      exact ih store sch n fr h
    · rw [if_neg hex]
      by_cases hc : f.content = ""
      · rw [if_pos hc]
        exact ih store sch n fr h
      · rw [if_neg hc]
        cases hp : parseBy p (pyLower (splitextExt f.filename)) f.content with
        | error e => exact ⟨fr, h⟩
        | ok df =>
          by_cases htn : sanitize_table_name f.filename = n
          · exact ih _ _ n df (by rw [storeGet_storePut, if_pos htn])
          · exact ih _ _ n fr (by rw [storeGet_storePut, if_neg htn]; exact h)

/-- C3 counterexample: two successive one-file batches. After the second
completed batch the registry holds exactly one descriptor (`b(y)`), but the
Table Store still holds TWO tables — the table `a` loaded by the first
batch, whose name the second batch did not reuse, is still present (and
hence still queryable from the shared sqlite file at `DB_PATH`). The
registry therefore does not contain one descriptor per stored table, and
the fresh batch did not fully replace the prior table set. -/
theorem C3_counterexample :
    ((upload_files demoParsers
        ((upload_files demoParsers ⟨[], []⟩ [⟨"a.csv", "x"⟩]).2)
        [⟨"b.csv", "y"⟩]).2.registry = ["b(y)"]) ∧
    ((upload_files demoParsers
        ((upload_files demoParsers ⟨[], []⟩ [⟨"a.csv", "x"⟩]).2)
        [⟨"b.csv", "y"⟩]).2.store.map Prod.fst = ["a", "b"]) ∧
    storeGet (upload_files demoParsers
        ((upload_files demoParsers ⟨[], []⟩ [⟨"a.csv", "x"⟩]).2)
        [⟨"b.csv", "y"⟩]).2.store "a" = some ⟨["x"], []⟩ :=
  ⟨rfl, rfl, rfl⟩

/-- C3 (amended): after every completed (successful) ingestion batch the
Schema Registry holds exactly the descriptors of that batch (the returned
schemas); same-named tables are replaced in the Table Store, but every
table name present before the batch is still present afterwards — tables
from earlier batches under names the new batch does not reuse remain in the
store and remain visible to queries. -/
theorem C3_registry_matches_batch (p : Parsers) (st : AppState)
    (files : List UFile) (resp : UploadResp) (st2 : AppState)
    (h : upload_files p st files = (Except.ok resp, st2)) :
    st2.registry = resp.schemas ∧
    ∀ n fr, storeGet st.store n = some fr → ∃ g, storeGet st2.store n = some g := by
  unfold upload_files at h
  by_cases he : files.isEmpty = true
  · rw [if_pos he] at h
    simp at h
  · rw [if_neg he] at h
    dsimp only at h
    rcases hfail : (processFiles p st.store [] files).failure with _ | e
    · rw [hfail] at h
      injection h with h1 h2
      injection h1 with h3
      constructor
      · rw [← h2, ← h3]
      · intro n fr hget
        rw [← h2]
        exact processFiles_store_mono p files st.store [] n fr hget
    · rw [hfail] at h
      simp at h

/-- C3 witness: the amended statement applied to the second batch of the
counterexample scenario. -/
theorem C3_registry_matches_batch_witness :
    (⟨[("a", Frame.mk ["x"] []), ("b", Frame.mk ["y"] [])], ["b(y)"]⟩ :
        AppState).registry = (UploadResp.mk "Files uploaded" ["b(y)"]).schemas ∧
    ∃ g, storeGet [("a", Frame.mk ["x"] []), ("b", Frame.mk ["y"] [])] "a" =
      some g := by
  have h := C3_registry_matches_batch demoParsers
    ⟨[("a", Frame.mk ["x"] [])], ["a(x)"]⟩ [⟨"b.csv", "y"⟩]
    (UploadResp.mk "Files uploaded" ["b(y)"])
    ⟨[("a", Frame.mk ["x"] []), ("b", Frame.mk ["y"] [])], ["b(y)"]⟩ rfl
  exact ⟨h.1, h.2 "a" (Frame.mk ["x"] []) rfl⟩

theorem processFiles_append (p : Parsers) (pre xs : List UFile) :
    ∀ store sch st1 sch1, processFiles p store sch pre = ⟨st1, sch1, none⟩ →
      processFiles p store sch (pre ++ xs) = processFiles p st1 sch1 xs := by
  induction pre with
  | nil =>
    intro store sch st1 sch1 h
    cases h
    rfl
  | cons f rest ih =>
    intro store sch st1 sch1 h
    simp only [processFiles] at h ⊢
    by_cases hex : (!allowedExt (pyLower (splitextExt f.filename))) = true
    · rw [if_pos hex] at h ⊢
      exact ih store sch st1 sch1 h
    · rw [if_neg hex] at h ⊢
      by_cases hc : f.content = ""
      · rw [if_pos hc] at h ⊢
        exact ih store sch st1 sch1 h
      · rw [if_neg hc] at h ⊢
        cases hp : parseBy p (pyLower (splitextExt f.filename)) f.content with
        | error e =>
          rw [hp] at h
          cases h
        | ok df =>
          rw [hp] at h
          exact ih _ _ st1 sch1 h

/-- C5 counterexample: a three-file batch whose middle file fails to parse.
The request aborts with `Upload failed: ...` (the `except` on lines 100-102
re-raises), the recognized file after the failing one is never ingested,
and no schemas are returned — the registry keeps its prior content. This
refutes the claim that the batch does not abort and that every other
recognized file is still ingested and reflected in the returned schemas. -/
theorem C5_counterexample :
    ((upload_files demoParsers ⟨[], ["old"]⟩
        [⟨"a.csv", "x"⟩, ⟨"b.csv", "BAD"⟩, ⟨"c.csv", "y"⟩]).1 =
      Except.error "Upload failed: bad parse") ∧
    storeGet (upload_files demoParsers ⟨[], ["old"]⟩
        [⟨"a.csv", "x"⟩, ⟨"b.csv", "BAD"⟩, ⟨"c.csv", "y"⟩]).2.store "c" = none ∧
    (upload_files demoParsers ⟨[], ["old"]⟩
        [⟨"a.csv", "x"⟩, ⟨"b.csv", "BAD"⟩, ⟨"c.csv", "y"⟩]).2.registry = ["old"] :=
  ⟨rfl, rfl, rfl⟩

/-- C5 (amended): a parse failure on one file ABORTS the batch: the upload
request fails with `Upload failed: <engine message>`, the files after the
failing one are never processed, no schemas are returned, and the registry
keeps its prior content, while the files before the failure have already
been written to the store. -/
theorem C5_parse_failure_aborts (p : Parsers) (st : AppState)
    (pre : List UFile) (f : UFile) (rest : List UFile) (e : String)
    (st1 : Store) (sch1 : List String)
    (hpre : processFiles p st.store [] pre = ⟨st1, sch1, none⟩)
    (hext : allowedExt (pyLower (splitextExt f.filename)) = true)
    (hcontent : ¬ f.content = "")
    (hparse : parseBy p (pyLower (splitextExt f.filename)) f.content =
      Except.error e) :
    upload_files p st (pre ++ f :: rest) =
      (Except.error ("Upload failed: " ++ e), ⟨st1, st.registry⟩) := by
  have hstep : processFiles p st.store [] (pre ++ f :: rest) =
      ⟨st1, sch1, some e⟩ := by
    rw [processFiles_append p pre (f :: rest) st.store [] st1 sch1 hpre]
    simp only [processFiles]
    rw [if_neg (by rw [hext]; simp), if_neg hcontent, hparse]
  unfold upload_files
  rw [if_neg (by simp), hstep]

/-- C5 witness: the amended statement applied to the counterexample batch. -/
theorem C5_parse_failure_aborts_witness :
    upload_files demoParsers ⟨[], ["old"]⟩
        ([⟨"a.csv", "x"⟩] ++ ⟨"b.csv", "BAD"⟩ :: [⟨"c.csv", "y"⟩]) =
      (Except.error ("Upload failed: " ++ "bad parse"),
        ⟨[("a", Frame.mk ["x"] [])], ["old"]⟩) :=
  C5_parse_failure_aborts demoParsers ⟨[], ["old"]⟩
    [⟨"a.csv", "x"⟩] ⟨"b.csv", "BAD"⟩ [⟨"c.csv", "y"⟩] "bad parse"
    [("a", Frame.mk ["x"] [])] ["a(x)"] rfl rfl (by decide) rfl

/-- C10: whenever an upload batch fails — including a parse failure partway
through, after earlier files were already written to the store — the
request fails as a whole and the Schema Registry is left exactly as it was
before the upload (the `with schema_lock` block on lines 95-97 is never
reached). -/
theorem C10_registry_unchanged_on_failure (p : Parsers) (st : AppState)
    (files : List UFile) (e : String) (st2 : AppState)
    (h : upload_files p st files = (Except.error e, st2)) :
    st2.registry = st.registry := by
  unfold upload_files at h
  by_cases he : files.isEmpty = true
  · rw [if_pos he] at h
    injection h with h1 h2
    rw [← h2]
  · rw [if_neg he] at h
    dsimp only at h
    rcases hfail : (processFiles p st.store [] files).failure with _ | e2
    · rw [hfail] at h
      simp at h
    · rw [hfail] at h
      injection h with h1 h2
      rw [← h2]

/-- C10 witness: a failing batch from an empty store — the registry content
`["keep"]` survives even though the first file's table was already written
to the store. -/
theorem C10_registry_unchanged_on_failure_witness :
    (upload_files demoParsers ⟨[], ["keep"]⟩
        [⟨"a.csv", "x"⟩, ⟨"b.csv", "BAD"⟩]).2.registry = ["keep"] ∧
    (upload_files demoParsers ⟨[], ["keep"]⟩
        [⟨"a.csv", "x"⟩, ⟨"b.csv", "BAD"⟩]).2.store ≠ [] := by
  constructor
  · exact C10_registry_unchanged_on_failure demoParsers ⟨[], ["keep"]⟩
      [⟨"a.csv", "x"⟩, ⟨"b.csv", "BAD"⟩] "Upload failed: bad parse"
      (upload_files demoParsers ⟨[], ["keep"]⟩
        [⟨"a.csv", "x"⟩, ⟨"b.csv", "BAD"⟩]).2 rfl
  · decide

/-- C8: the registry replacement is atomic with respect to a concurrent
snapshot: in the interleaving model of lines 95-97 against lines 139-140,
any snapshot a reader ever takes is either the entire old registry content
or the entire new content, never a partially populated intermediate
state. -/
theorem C8_replace_atomic {old new : List String} {c : RegCfg}
    {s : List String} (hreach : RegReach old new c) (hsnap : c.snap = some s) :
    s = old ∨ s = new :=
  (regInv_reach hreach).2.2.2.2.2.2 s hsnap

/-- C8 witness: a reader that runs entirely before the writer acquires the
lock snapshots the complete old content. -/
theorem C8_replace_atomic_witness :
    (["t(a)"] : List String) = ["t(a)"] ∨ (["t(a)"] : List String) = ["u(b)"] := by
  have h1 : RegStep ["t(a)"] ["u(b)"] (initCfg ["t(a)"])
      ⟨["t(a)"], some false, 0, 0, 1, none⟩ :=
    RegStep.rAcquire (initCfg ["t(a)"]) rfl rfl
  have h2 : RegStep ["t(a)"] ["u(b)"] ⟨["t(a)"], some false, 0, 0, 1, none⟩
      ⟨["t(a)"], some false, 0, 0, 2, some ["t(a)"]⟩ :=
    RegStep.rCopy ⟨["t(a)"], some false, 0, 0, 1, none⟩ rfl
  exact C8_replace_atomic
    (Relation.ReflTransGen.tail
      (Relation.ReflTransGen.tail Relation.ReflTransGen.refl h1) h2) rfl

end NL2SQL
